import Mathlib

/-!
Verification of the `org-mgmt` Bitbucket reader (`src/bb_reader.py`).

We shallowly embed the refresh pipeline of `BBDirReader`: Python values
that flow through the org cache are modelled by `PyVal` (strings, `None`,
lists, plain dicts and `defaultdict(dict)` instances), dict operations
follow Python semantics (`KeyError` on a missing key of a plain dict,
auto-vivification on reads of a `defaultdict(dict)`, `TypeError` for an
unhashable key or for string-subscripting a list), and the outside world
(repository listing, file contents, the clock) is an explicit oracle
(`Env`).  The paginated REST loop (`_bb_rest_get`) and the single-request
auth retry (`_request`) get their own oracle-driven models.
-/

namespace OrgMgmt

/-- Python `str.lower` on one character (ASCII range, which covers the
identifiers this system handles). -/
def pyLowerChar (c : Char) : Char :=
  if 'A' ≤ c ∧ c ≤ 'Z' then Char.ofNat (c.toNat + 32) else c

/-- Python `s.lower()`. -/
def pyLower (s : String) : String :=
  String.mk (s.toList.map pyLowerChar)

/-- Python `s.endswith(suffix)`. -/
def strEndsWith (s suffix : String) : Bool :=
  let l := s.toList
  let t := suffix.toList
  if t.length ≤ l.length then (l.drop (l.length - t.length)) == t else false

/-- Python `s[:-n]` for `n > 0`: drop the last `n` characters. -/
def strDropRight (s : String) (n : Nat) : String :=
  String.mk (s.toList.take (s.toList.length - n))

/-- Python exceptions that can escape the modelled code paths of
`refresh`: `KeyError`, `TypeError` and `AttributeError`. -/
inductive PyExn where
  | keyError
  | typeError
  | attrError
deriving DecidableEq, Repr

/-- Hashable Python values, the only ones usable as dict keys on the
paths `refresh` exercises: strings and `None`.  Unhashable values (lists,
dicts) raise `TypeError` at the point of use, see `toKey`. -/
inductive PyKey where
  | str : String → PyKey
  | vnone : PyKey
deriving DecidableEq, Repr

/-- Python values stored in the org cache: strings, `None`, lists, plain
dicts and `defaultdict(dict)` instances (`ddict`).  Dict entries are
association lists in insertion order. -/
inductive PyVal where
  | str : String → PyVal
  | vnone : PyVal
  | list : List PyVal → PyVal
  | dict : List (PyKey × PyVal) → PyVal
  | ddict : List (PyKey × PyVal) → PyVal

/-- View of a hashable value as a plain value (used when iterating a
dict, which yields its keys). -/
def PyKey.toVal : PyKey → PyVal
  | .str s => .str s
  | .vnone => .vnone

/-- Using a value as a dict key: Python hashes the key first, so lists
and dicts raise `TypeError`; strings and `None` are hashable. -/
def toKey : PyVal → Except PyExn PyKey
  | .str s => .ok (.str s)
  | .vnone => .ok .vnone
  | _ => .error .typeError

/-- Association-list lookup, first (unique) match. -/
def alookup : List (PyKey × PyVal) → PyKey → Option PyVal
  | [], _ => none
  | (k₀, v₀) :: rest, k => if k₀ = k then some v₀ else alookup rest k

/-- Association-list write with Python dict semantics: an existing key
keeps its position and gets the new value, a new key is appended. -/
def aupdate : List (PyKey × PyVal) → PyKey → PyVal → List (PyKey × PyVal)
  | [], k, v => [(k, v)]
  | (k₀, v₀) :: rest, k, v =>
    if k₀ = k then (k₀, v) :: rest else (k₀, v₀) :: aupdate rest k v

/-- Python `container[key]` read as it occurs in `refresh`.  Returns the
value together with the possibly mutated container: reading a missing key
of a `defaultdict(dict)` inserts a fresh `\x7b\x7d`.  A missing key of a
plain dict raises `KeyError`; subscripting anything else with these keys
raises `TypeError`. -/
def getItem : PyVal → PyVal → Except PyExn (PyVal × PyVal)
  | .dict d, k =>
    match toKey k with
    | .error e => .error e
    | .ok kk =>
      match alookup d kk with
      | some v => .ok (v, .dict d)
      | none => .error .keyError
  | .ddict d, k =>
    match toKey k with
    | .error e => .error e
    | .ok kk =>
      match alookup d kk with
      | some v => .ok (v, .ddict d)
      | none => .ok (.dict [], .ddict (d ++ [(kk, .dict [])]))
  | _, _ => .error .typeError

/-- Python `container[key] = v` as it occurs in `refresh`. -/
def setItem : PyVal → PyVal → PyVal → Except PyExn PyVal
  | .dict d, k, v =>
    match toKey k with
    | .error e => .error e
    | .ok kk => .ok (.dict (aupdate d kk v))
  | .ddict d, k, v =>
    match toKey k with
    | .error e => .error e
    | .ok kk => .ok (.ddict (aupdate d kk v))
  | _, _, _ => .error .typeError

/-- Python `for x in v`: lists yield their elements, dicts their keys,
strings their characters; `None` is not iterable (`TypeError`). -/
def pyIter : PyVal → Except PyExn (List PyVal)
  | .list l => .ok l
  | .dict d => .ok (d.map (fun kv => kv.1.toVal))
  | .ddict d => .ok (d.map (fun kv => kv.1.toVal))
  | .str s => .ok (s.toList.map (fun c => .str (String.mk [c])))
  | .vnone => .error .typeError

/-- Test used by `_load_bb_file`: `isinstance(content_dict, (dict, list))`
(a `defaultdict` is an instance of `dict`). -/
def isDictOrList : PyVal → Bool
  | .dict _ => true
  | .ddict _ => true
  | .list _ => true
  | _ => false

/-- Outcome of `yaml.load` / `json.loads` on the raw content of a file,
as supplied by the environment oracle.  `raise` covers both a failed
transport (which `_bb_get_file` turns into an empty string, failing
deserialization) and unparseable content. -/
inductive ParseResult where
  | ok : PyVal → ParseResult
  | raise : ParseResult

/-- Model of `BBDirReader._load_bb_file`: a deserialization error, or a
deserialized value that is not a mapping or sequence, becomes
`BBFileLoadFailure` (here `.error ()`). -/
def load_bb_file : ParseResult → Except Unit PyVal
  | .raise => .error ()
  | .ok v => if isDictOrList v then .ok v else .error ()

/-- Fields of one element of the `values` array of the repository
listing that `_get_repo_names` reads. -/
structure Repo where
  name : String
  slug : String

/-- Model of `BBDirReader._get_repo_names`: the slugs of the listed
repositories whose display name ends with `-org` (an empty listing gives
an empty name list). -/
def get_repo_names (vals : List Repo) : List String :=
  (vals.filter (fun v => strEndsWith v.name "-org")).map (fun v => v.slug)

/-- Entries of the per-context dict comprehension of
`BBDirReader._make_cache`:
`r.lower()[:-len("-org")]` maps to a fresh `defaultdict(dict)` for
every repo name `r` that ends with `-org`. -/
def skeletonAList (names : List String) : List (PyKey × PyVal) :=
  (names.filter (fun r => strEndsWith r "-org")).foldl
    (fun d r => aupdate d (.str (strDropRight (pyLower r) 4)) (.ddict [])) []

/-- The per-context skeleton dict built by `_make_cache` (a plain dict:
the comprehension produces a `dict`, not a `defaultdict`). -/
def skeletonDict (names : List String) : PyVal :=
  .dict (skeletonAList names)

/-- The whole cache: context name to per-context dict, in insertion
order (`CacheObject` is a dict at top level). -/
abbrev Cache := List (String × PyVal)

/-- Top-level (string-keyed) dict write for the context loop of
`_make_cache`. -/
def supdate : Cache → String → PyVal → Cache
  | [], k, v => [(k, v)]
  | (k₀, v₀) :: rest, k, v =>
    if k₀ = k then (k₀, v) :: rest else (k₀, v₀) :: supdate rest k v

/-- Model of `BBDirReader._make_cache`: one skeleton dict per configured
context. -/
def make_cache (contexts : List String) (listing : String → List Repo) : Cache :=
  contexts.foldl (fun acc c => supdate acc c (skeletonDict (get_repo_names (listing c)))) []

/-! ### Pagination (`_bb_rest_get`) -/

/-- A well-formed JSON page returned by a successful `_request` inside
`_bb_rest_get`: the three fields the loop reads. -/
structure Page (α : Type) where
  isLastPage : Bool
  nextPageStart : Nat
  values : List α

/-- Outcome of one `_request` call inside the loop of `_bb_rest_get`: a page,
or one of the exception classes caught there (`BBRequestAuthFail`,
`RequestNotOK`, anything else). -/
inductive PageResult (α : Type) where
  | page : Page α → PageResult α
  | authFail : PageResult α
  | notOK : PageResult α
  | exn : PageResult α

/-- True when the page request raised (any of the three caught classes). -/
def PageResult.isFailure {α} : PageResult α → Bool
  | .page _ => false
  | _ => true

/-- The `while not rsp["isLastPage"]` loop of `_bb_rest_get`, with the
server as an oracle from start offset to page result.  `fuel` bounds the
iterations of the model (the Python loop would spin for ever on a server
that never reports a last page); `none` means fuel ran out.  On an
exception the values accumulated so far are returned
(`return rtn or []` — the same list). -/
def fetchGo {α} (server : Nat → PageResult α) : Nat → Nat → List α → Option (List α)
  | 0, _, _ => none
  | fuel + 1, start, acc =>
    match server start with
    | .page p =>
      if p.isLastPage then some (acc ++ p.values)
      else fetchGo server fuel p.nextPageStart (acc ++ p.values)
    | _ => some acc

/-- Model of `BBDirReader._bb_rest_get`: the loop starts at offset 0
(the seed response carries `nextPageStart: 0`) with an empty
accumulator. -/
def bb_rest_get {α} (server : Nat → PageResult α) (fuel : Nat) : Option (List α) :=
  fetchGo server fuel 0 []

/-- The server delivers exactly the given pages along the chain of
`nextPageStart` offsets beginning at `start`. -/
def servesChain {α} (server : Nat → PageResult α) : Nat → List (Page α) → Prop
  | _, [] => True
  | start, p :: rest => server start = .page p ∧ servesChain server p.nextPageStart rest

/-- Offset reached after following the chain of pages from `start`. -/
def chainEnd {α} : Nat → List (Page α) → Nat
  | start, [] => start
  | _, p :: rest => chainEnd p.nextPageStart rest

/-- Concatenation of the `values` arrays of a list of pages, in page
order. -/
def pagesValues {α} : List (Page α) → List α
  | [] => []
  | p :: rest => p.values ++ pagesValues rest

/-! ### Single request with auth retry (`_request`) -/

/-- Outcome of one `requests.get` inside `_request`: a TLS/SSL error, a
response with a status code, or some other exception. -/
inductive AttemptOutcome where
  | sslError
  | otherExn
  | response : Nat → AttemptOutcome

/-- How one call of `_request` ends: body returned (status 200),
`BBRequestAuthFail` raised, `RequestNotOK` raised, or another exception
escapes (for `otherExn` the bare handler references the unbound `rsp`,
so a `NameError` escapes). -/
inductive ReqOutcome where
  | success
  | authFail
  | notOK
  | exn
deriving DecidableEq, Repr

/-- Model of `BBDirReader._request`, with the transport as an oracle over
attempt numbers.  Returns the outcome, the number of token
re-acquisitions and the number of `requests.get` attempts made by this
call (the recursion carries the `_retry_` guard flag of the source). -/
def requestGo (outs : Nat → AttemptOutcome) (i : Nat) (retryFlag : Bool) :
    ReqOutcome × Nat × Nat :=
  match outs i with
  | .response s => (if s = 200 then .success else .notOK, 0, 1)
  | .otherExn => (.exn, 0, 1)
  | .sslError =>
    if retryFlag then (.authFail, 0, 1)
    else
      let p := requestGo outs (i + 1) true
      (p.1, p.2.1 + 1, p.2.2 + 1)
termination_by (if retryFlag then 0 else 1)
decreasing_by simp_all

/-- One external call of `_request` (`_retry_` defaults to `False`). -/
def request (outs : Nat → AttemptOutcome) : ReqOutcome × Nat × Nat :=
  requestGo outs 0 false

/-! ### The refresh pipeline -/

/-- Parse results for the files of one org (`orgConfig.yml`,
`spaces.yml`) and of its spaces (`<space>/security-group.json`,
`<space>/spaceConfig.yml`), keyed by the space value the loop variable
holds. -/
structure OrgEnv where
  orgConfig : ParseResult
  spacesFile : ParseResult
  secFile : PyVal → ParseResult
  spcFile : PyVal → ParseResult

/-- Environment of one `BBDirReader`: the configured contexts, the
repository listing per context (well-formed repo objects), the file
contents per context/slug, and the clock read at the end of `refresh`. -/
structure Env where
  contexts : List String
  listing : String → List Repo
  files : String → String → OrgEnv
  now : Nat

/-- Model of `odict["org"].lower()` in `refresh`: a missing key of a mapping is a
`KeyError` (caught there), string-subscripting a sequence is a
`TypeError` and `.lower()` of a non-string an `AttributeError` (both
uncaught). -/
def getOrgKey (odict : PyVal) : Except PyExn PyVal :=
  match getItem odict (.str "org") with
  | .error e => .error e
  | .ok (v, _) =>
    match v with
    | .str s => .ok (.str (pyLower s))
    | _ => .error .attrError

/-- Model of `new_cache[context][repo][f] = v`: the dict of the context
is a plain dict (`KeyError` when `repo` is not a key — the comprehension
in `_make_cache` builds a plain dict), the org entry a
`defaultdict(dict)`. -/
def setPath1 (ctxDict repo f v : PyVal) : Except PyExn PyVal :=
  match getItem ctxDict repo with
  | .error e => .error e
  | .ok (entry, ctxDict₁) =>
    match setItem entry f v with
    | .error e => .error e
    | .ok entry₁ => setItem ctxDict₁ repo entry₁

/-- Read `new_cache[context][repo][f₁][f₂]`, propagating the
auto-vivification performed by a read of a missing `defaultdict(dict)`
key (Python mutates the shared object; the model writes it back). -/
def getPath2 (ctxDict repo f₁ f₂ : PyVal) : Except PyExn (PyVal × PyVal) :=
  match getItem ctxDict repo with
  | .error e => .error e
  | .ok (entry, ctxDict₁) =>
    match getItem entry f₁ with
    | .error e => .error e
    | .ok (v₁, entry₁) =>
      match getItem v₁ f₂ with
      | .error e => .error e
      | .ok (v₂, v₁') =>
        match setItem entry₁ f₁ v₁' with
        | .error e => .error e
        | .ok entry₂ =>
          match setItem ctxDict₁ repo entry₂ with
          | .error e => .error e
          | .ok ctxDict₂ => .ok (v₂, ctxDict₂)

/-- `new_cache[context][repo][space][f] = v`: the org entry is a
`defaultdict(dict)`, so evaluating `[space]` inserts a fresh dict when
the key is absent. -/
def setPath2 (ctxDict repo space f v : PyVal) : Except PyExn PyVal :=
  match getItem ctxDict repo with
  | .error e => .error e
  | .ok (entry, ctxDict₁) =>
    match getItem entry space with
    | .error e => .error e
    | .ok (spEnt, entry₁) =>
      match setItem spEnt f v with
      | .error e => .error e
      | .ok spEnt₁ =>
        match setItem entry₁ space spEnt₁ with
        | .error e => .error e
        | .ok entry₂ => setItem ctxDict₁ repo entry₂

/-- Body of the space loop of `refresh`: the `security-group.json` /
`spaceConfig.yml` pair is loaded inside one `try`, and on
`BBFileLoadFailure` both are recorded as `None`; then both fields of the
entry of the space are assigned. -/
def processSpace (files : OrgEnv) (ctxDict repo space : PyVal) : Except PyExn PyVal :=
  let pair :=
    match load_bb_file (files.secFile space) with
    | .error _ => (PyVal.vnone, PyVal.vnone)
    | .ok secv =>
      match load_bb_file (files.spcFile space) with
      | .error _ => (PyVal.vnone, PyVal.vnone)
      | .ok spcv => (secv, spcv)
  match setPath2 ctxDict repo space (.str "security") pair.1 with
  | .error e => .error e
  | .ok ctxDict₁ => setPath2 ctxDict₁ repo space (.str "space_config") pair.2

/-- Body of the slug loop of `refresh` for one org: load `orgConfig.yml`
(`BBFileLoadFailure` and a `KeyError` from `odict["org"]` skip the org),
load `spaces.yml` (failure defaults to `defaultdict(dict)`), store `org`
and `space` under the declared org key, then process each space named by
`new_cache[context][repo]["space"]["spaces"]`. -/
def processSlug (files : OrgEnv) (ctxDict : PyVal) : Except PyExn PyVal :=
  match load_bb_file files.orgConfig with
  | .error _ => .ok ctxDict
  | .ok odict =>
    match getOrgKey odict with
    | .error .keyError => .ok ctxDict
    | .error e => .error e
    | .ok repo =>
      let sdict :=
        match load_bb_file files.spacesFile with
        | .ok s => s
        | .error _ => PyVal.ddict []
      match setPath1 ctxDict repo (.str "org") odict with
      | .error e => .error e
      | .ok c₁ =>
        match setPath1 c₁ repo (.str "space") sdict with
        | .error e => .error e
        | .ok c₂ =>
          match getPath2 c₂ repo (.str "space") (.str "spaces") with
          | .error e => .error e
          | .ok (spacesVal, c₃) =>
            match pyIter spacesVal with
            | .error e => .error e
            | .ok spaces =>
              spaces.foldlM (fun cd sp => processSpace files cd repo sp) c₃

/-- Rendering of a skeleton key in
`sluglist = ["\x7b\x7d-org".format(r) for r in repolist]` (skeleton keys
are always strings; `None` renders as `"None"`). -/
def pyFormatKey : PyKey → String
  | .str s => s
  | .vnone => "None"

/-- The slug list `refresh` derives from the skeleton keys of a context
by appending `-org` back. -/
def sluglistOf (ctxDict : PyVal) : List String :=
  match ctxDict with
  | .dict d => d.map (fun kv => pyFormatKey kv.1 ++ "-org")
  | .ddict d => d.map (fun kv => pyFormatKey kv.1 ++ "-org")
  | _ => []

/-- The `for slug in sluglist` loop of `refresh` over one context. -/
def slugsFold (files : String → OrgEnv) (slugs : List String) (ctxDict : PyVal) :
    Except PyExn PyVal :=
  slugs.foldlM (fun cd slug => processSlug (files slug) cd) ctxDict

/-- One iteration of the context loop of `refresh`. -/
def processContext (files : String → String → OrgEnv) (context : String)
    (ctxDict : PyVal) : Except PyExn PyVal :=
  slugsFold (files context) (sluglistOf ctxDict) ctxDict

/-- The cache-building part of `refresh`: a fresh skeleton via
`_make_cache`, then the context/slug loops.  An uncaught Python
exception escapes as `.error`. -/
def refreshBuild (env : Env) : Except PyExn Cache :=
  (make_cache env.contexts env.listing).mapM
    (fun ce =>
      match processContext env.files ce.1 ce.2 with
      | .error e => .error e
      | .ok d => .ok (ce.1, d))

/-- The fields of `BBDirReader` that `refresh` publishes to: `_cache`
and `_cache_timestamp`. -/
structure ReaderState where
  cache : Cache
  cache_timestamp : Option Nat

/-- `BBDirReader.__init__`: the cache starts as the bare skeleton and the
timestamp as `None`. -/
def initState (env : Env) : ReaderState :=
  { cache := make_cache env.contexts env.listing, cache_timestamp := none }

/-- `BBDirReader.refresh`: build the new cache; only after the whole
build has finished are `_cache` (one reference assignment,
`self._cache = dict(new_cache)`) and `_cache_timestamp` updated.  An
escaping exception (second component) leaves the state exactly as it
was. -/
def refresh (env : Env) (st : ReaderState) : ReaderState × Option PyExn :=
  match refreshBuild env with
  | .ok nc => ({ cache := nc, cache_timestamp := some env.now }, none)
  | .error e => (st, some e)

/-! ### Concrete instances used by witnesses and counterexamples -/

/-- A reader state with an empty published cache and no timestamp yet. -/
def st0 : ReaderState := { cache := [], cache_timestamp := none }

/-- A single listed repository whose slug and display name both end in
`-org`. -/
def repoX : Repo := { name := "x-org", slug := "x-org" }

/-- Org files where `orgConfig.yml` declares `org: x` (matching the
skeleton key of `repoX`) and `spaces.yml` fails to load. -/
def filesSpacesFail : OrgEnv :=
  { orgConfig := .ok (.dict [(.str "org", .str "x")])
    spacesFile := .raise
    secFile := fun _ => .raise
    spcFile := fun _ => .raise }

/-- Environment with one context and one org whose `spaces.yml` fails to
load. -/
def envSpacesFail : Env :=
  { contexts := ["c"]
    listing := fun _ => [repoX]
    files := fun _ _ => filesSpacesFail
    now := 7 }

/-- Org files where `spaces.yml` loads as a mapping that has no `spaces`
key. -/
def filesNoSpacesKey : OrgEnv :=
  { orgConfig := .ok (.dict [(.str "org", .str "x")])
    spacesFile := .ok (.dict [(.str "other", .str "v")])
    secFile := fun _ => .raise
    spcFile := fun _ => .raise }

/-- Environment with one context and one org whose loaded spaces-config
has no `spaces` field. -/
def envC2 : Env :=
  { contexts := ["c"]
    listing := fun _ => [repoX]
    files := fun _ _ => filesNoSpacesKey
    now := 7 }

/-- Org files where `orgConfig.yml` declares `org: Y`, whose lowercased
value `y` differs from the skeleton key `x` of `repoX`. -/
def filesDeclaredY : OrgEnv :=
  { orgConfig := .ok (.dict [(.str "org", .str "Y")])
    spacesFile := .raise
    secFile := fun _ => .raise
    spcFile := fun _ => .raise }

/-- Environment with one context and one org whose declared org name
does not match its slug-derived skeleton key. -/
def envC7 : Env :=
  { contexts := ["c"]
    listing := fun _ => [repoX]
    files := fun _ _ => filesDeclaredY
    now := 7 }

/-- Org files whose space files both load. -/
def filesSpacesOk : OrgEnv :=
  { orgConfig := .ok (.dict [(.str "org", .str "x")])
    spacesFile := .ok (.dict [(.str "spaces", .list [.str "s1"])])
    secFile := fun _ => .ok (.list [.str "sec"])
    spcFile := fun _ => .ok (.dict [(.str "a", .str "b")]) }

/-- Per-slug file table whose `orgConfig.yml` always fails to load. -/
def filesAllOrgFail : String → OrgEnv :=
  fun _ =>
    { orgConfig := .raise
      spacesFile := .raise
      secFile := fun _ => .raise
      spcFile := fun _ => .raise }

/-- Per-slug file table whose `orgConfig.yml` always loads as a mapping
without an `org` key. -/
def filesAllNoOrgKey : String → OrgEnv :=
  fun _ =>
    { orgConfig := .ok (.dict [(.str "name", .str "n")])
      spacesFile := .raise
      secFile := fun _ => .raise
      spcFile := fun _ => .raise }

/-- Page server that returns one non-last page with two values and fails
with `BBRequestAuthFail` on every other offset. -/
def pageServer1 : Nat → PageResult Nat := fun start =>
  if start = 0 then .page { isLastPage := false, nextPageStart := 7, values := [1, 2] }
  else .authFail

/-- Page server with a two-page chain `0 → 5` ending in a last page. -/
def pageServer2 : Nat → PageResult Nat := fun start =>
  if start = 0 then .page { isLastPage := false, nextPageStart := 5, values := [1, 2] }
  else if start = 5 then .page { isLastPage := true, nextPageStart := 0, values := [3] }
  else .exn

/-- Transport oracle that raises an SSL error on every attempt. -/
def outsSSL : Nat → AttemptOutcome := fun _ => .sslError

/-! ### Association-list lemmas -/

theorem alookup_aupdate_self (d : List (PyKey × PyVal)) (k : PyKey) (v : PyVal) :
    alookup (aupdate d k v) k = some v := by
  induction d with
  | nil => simp [aupdate, alookup]
  | cons hd tl ih =>
    obtain ⟨k₀, v₀⟩ := hd
    by_cases h : k₀ = k <;> simp [aupdate, alookup, h, ih]

theorem alookup_aupdate_ne (d : List (PyKey × PyVal)) (k' k : PyKey) (v : PyVal)
    (h : k' ≠ k) : alookup (aupdate d k' v) k = alookup d k := by
  induction d with
  | nil => simp [aupdate, alookup, h]
  | cons hd tl ih =>
    obtain ⟨k₀, v₀⟩ := hd
    by_cases h₀ : k₀ = k' <;> by_cases h₁ : k₀ = k <;>
      simp_all [aupdate, alookup]

theorem aupdate_aupdate_self (d : List (PyKey × PyVal)) (k : PyKey) (v w : PyVal) :
    aupdate (aupdate d k v) k w = aupdate d k w := by
  induction d with
  | nil => simp [aupdate]
  | cons hd tl ih =>
    obtain ⟨k₀, v₀⟩ := hd
    by_cases h : k₀ = k <;> simp [aupdate, h, ih]

theorem alookup_append_of_none (d l : List (PyKey × PyVal)) (k : PyKey)
    (h : alookup d k = none) : alookup (d ++ l) k = alookup l k := by
  induction d with
  | nil => simp
  | cons hd tl ih =>
    obtain ⟨k₀, v₀⟩ := hd
    by_cases h₀ : k₀ = k <;> simp_all [alookup]

theorem aupdate_append_of_none (d l : List (PyKey × PyVal)) (k : PyKey) (v : PyVal)
    (h : alookup d k = none) : aupdate (d ++ l) k v = d ++ aupdate l k v := by
  induction d with
  | nil => simp
  | cons hd tl ih =>
    obtain ⟨k₀, v₀⟩ := hd
    by_cases h₀ : k₀ = k <;> simp_all [alookup, aupdate]

theorem alookup_aupdate_isSome (d : List (PyKey × PyVal)) (k' k : PyKey) (v : PyVal) :
    (alookup (aupdate d k' v) k).isSome ↔ (alookup d k).isSome ∨ k' = k := by
  by_cases h : k' = k
  · subst h; simp [alookup_aupdate_self]
  · simp [alookup_aupdate_ne d k' k v h, h]

theorem alookup_fold_isSome (names : List String) (f : String → PyKey) (w : PyVal)
    (init : List (PyKey × PyVal)) (k : PyKey) :
    (alookup (names.foldl (fun d r => aupdate d (f r) w) init) k).isSome ↔
      (alookup init k).isSome ∨ ∃ r ∈ names, f r = k := by
  induction names generalizing init with
  | nil => simp
  | cons a rest ih =>
    rw [List.foldl_cons, ih, alookup_aupdate_isSome]
    constructor
    · rintro ((h | h) | ⟨r, hr, hfr⟩)
      · exact Or.inl h
      · exact Or.inr ⟨a, List.mem_cons_self a rest, h⟩
      · exact Or.inr ⟨r, List.mem_cons_of_mem a hr, hfr⟩
    · rintro (h | ⟨r, hr, hfr⟩)
      · exact Or.inl (Or.inl h)
      · rcases List.mem_cons.mp hr with h | h
        · exact Or.inl (Or.inr (h ▸ hfr))
        · exact Or.inr ⟨r, h, hfr⟩

theorem alookup_fold_val (names : List String) (f : String → PyKey) (w : PyVal)
    (init : List (PyKey × PyVal)) (k : PyKey) (p : PyVal) :
    alookup (names.foldl (fun d r => aupdate d (f r) w) init) k = some p →
      alookup init k = some p ∨ p = w := by
  induction names generalizing init with
  | nil => exact fun h => Or.inl h
  | cons a rest ih =>
    intro h
    rcases ih (aupdate init (f a) w) h with h' | h'
    · by_cases hk : f a = k
      · subst hk; rw [alookup_aupdate_self] at h'
        exact Or.inr (Option.some_injective _ h').symm
      · rw [alookup_aupdate_ne init (f a) k w hk] at h'
        exact Or.inl h'
    · exact Or.inr h'

/-- Values produced by `_load_bb_file` are mappings or sequences, never
`None`. -/
theorem load_bb_file_ne_vnone (p : ParseResult) : load_bb_file p ≠ .ok PyVal.vnone := by
  cases p with
  | raise => simp [load_bb_file]
  | ok v => cases v <;> simp [load_bb_file, isDictOrList]

/-! ### Pagination lemmas -/

theorem fetchGo_chain_last {α} (server : Nat → PageResult α) (ps : List (Page α))
    (plast : Page α) :
    ∀ (start : Nat) (acc : List α) (fuel : Nat),
      ps.length + 1 ≤ fuel →
      servesChain server start (ps ++ [plast]) →
      (∀ p ∈ ps, p.isLastPage = false) →
      plast.isLastPage = true →
      fetchGo server fuel start acc = some (acc ++ pagesValues (ps ++ [plast])) := by
  induction ps with
  | nil =>
    intro start acc fuel hfuel hchain hnl hl
    obtain ⟨hs, -⟩ := hchain
    match fuel, hfuel with
    | fuel + 1, _ => simp [fetchGo, hs, hl, pagesValues]
  | cons p rest ih =>
    intro start acc fuel hfuel hchain hnl hl
    obtain ⟨hs, hchain'⟩ := hchain
    match fuel, hfuel with
    | fuel + 1, hfuel =>
      have hp : p.isLastPage = false := hnl p (List.mem_cons_self p rest)
      have hrest : ∀ q ∈ rest, q.isLastPage = false :=
        fun q hq => hnl q (List.mem_cons_of_mem p hq)
      have ihr := ih p.nextPageStart (acc ++ p.values) fuel
        (by simpa using Nat.lt_succ_iff.mp (Nat.lt_of_lt_of_le (Nat.lt_succ_self _)
          (by simpa [List.length_cons] using hfuel)))
        hchain' hrest hl
      simp [fetchGo, hs, hp, ihr, pagesValues]

theorem fetchGo_chain_fail {α} (server : Nat → PageResult α) (ps : List (Page α)) :
    ∀ (start : Nat) (acc : List α) (fuel : Nat),
      ps.length + 1 ≤ fuel →
      servesChain server start ps →
      (∀ p ∈ ps, p.isLastPage = false) →
      (server (chainEnd start ps)).isFailure = true →
      fetchGo server fuel start acc = some (acc ++ pagesValues ps) := by
  induction ps with
  | nil =>
    intro start acc fuel hfuel hchain hnl hfail
    match fuel, hfuel with
    | fuel + 1, _ =>
      simp only [chainEnd] at hfail
      cases hs : server start <;>
        simp_all [fetchGo, PageResult.isFailure, pagesValues]
  | cons p rest ih =>
    intro start acc fuel hfuel hchain hnl hfail
    obtain ⟨hs, hchain'⟩ := hchain
    match fuel, hfuel with
    | fuel + 1, hfuel =>
      have hp : p.isLastPage = false := hnl p (List.mem_cons_self p rest)
      have hrest : ∀ q ∈ rest, q.isLastPage = false :=
        fun q hq => hnl q (List.mem_cons_of_mem p hq)
      have ihr := ih p.nextPageStart (acc ++ p.values) fuel
        (by simpa [List.length_cons] using Nat.succ_le_succ_iff.mp hfuel)
        hchain' hrest (by simpa [chainEnd] using hfail)
      simp [fetchGo, hs, hp, ihr, pagesValues]

/-- C5: for any chain of `N ≥ 1` pages in which every page but the last
reports `isLastPage = false` and the last reports `isLastPage = true`,
`_bb_rest_get` starts at offset 0, follows the `nextPageStart` of each
page, and returns the concatenation of the `values` arrays of the pages
in page order. -/
theorem fetchAll_concatenates_pages_in_order {α} (server : Nat → PageResult α)
    (ps : List (Page α)) (plast : Page α) (fuel : Nat)
    (hfuel : ps.length + 1 ≤ fuel)
    (hchain : servesChain server 0 (ps ++ [plast]))
    (hnl : ∀ p ∈ ps, p.isLastPage = false)
    (hl : plast.isLastPage = true) :
    bb_rest_get server fuel = some (pagesValues (ps ++ [plast])) := by
  simpa [bb_rest_get] using
    fetchGo_chain_last server ps plast 0 [] fuel hfuel hchain hnl hl

/-- Witness for `fetchAll_concatenates_pages_in_order` on a concrete
two-page chain. -/
theorem fetchAll_concatenates_pages_in_order_witness :
    bb_rest_get pageServer2 2 = some [1, 2, 3] :=
  fetchAll_concatenates_pages_in_order pageServer2
    [{ isLastPage := false, nextPageStart := 5, values := [1, 2] }]
    { isLastPage := true, nextPageStart := 0, values := [3] } 2
    (by decide) ⟨rfl, rfl, trivial⟩ (by simp) rfl

/-- C3 counterexample: a listing whose second page request fails with
`BBRequestAuthFail` makes `_bb_rest_get` return the values accumulated
from the first page — a partial prefix — not the empty sequence the
claim requires. -/
theorem fetchAll_keeps_partial_results :
    (pageServer1 7).isFailure = true ∧
    bb_rest_get pageServer1 2 = some [1, 2] ∧
    bb_rest_get pageServer1 2 ≠ some ([] : List Nat) := by
  decide

/-- C3 as amended: when a page request of the chain fails (with any of
the caught exception classes), `_bb_rest_get` catches the exception and
returns the concatenation of the values of the pages fetched before the
failure — the empty sequence exactly when the failure precedes any
fetched values. -/
theorem fetchAll_failure_returns_fetched_values {α} (server : Nat → PageResult α)
    (ps : List (Page α)) (fuel : Nat)
    (hfuel : ps.length + 1 ≤ fuel)
    (hchain : servesChain server 0 ps)
    (hnl : ∀ p ∈ ps, p.isLastPage = false)
    (hfail : (server (chainEnd 0 ps)).isFailure = true) :
    bb_rest_get server fuel = some (pagesValues ps) := by
  simpa [bb_rest_get] using
    fetchGo_chain_fail server ps 0 [] fuel hfuel hchain hnl hfail

/-- Witness for `fetchAll_failure_returns_fetched_values` on a
concrete one-page-then-failure chain. -/
theorem fetchAll_failure_returns_fetched_values_witness :
    bb_rest_get pageServer1 2 = some [1, 2] :=
  fetchAll_failure_returns_fetched_values pageServer1
    [{ isLastPage := false, nextPageStart := 7, values := [1, 2] }] 2
    (by decide) ⟨rfl, trivial⟩ (by simp) rfl

/-! ### Auth retry (`_request`) -/

/-- C6: a single `_request` call performs at most one token
re-acquisition and at most two transport attempts; if the first attempt
raises the SSL/auth error it re-acquires a token and retries exactly
once; and if the retry raises the same error class the call fails with
`BBRequestAuthFail`. -/
theorem request_auth_retry_bound (outs : Nat → AttemptOutcome) :
    ((request outs).2.1 ≤ 1 ∧ (request outs).2.2 ≤ 2) ∧
    (outs 0 = .sslError → (request outs).2.1 = 1 ∧ (request outs).2.2 = 2) ∧
    (outs 0 = .sslError → outs 1 = .sslError → (request outs).1 = .authFail) := by
  cases h0 : outs 0 with
  | response s => simp [request, requestGo, h0]
  | otherExn => simp [request, requestGo, h0]
  | sslError =>
    cases h1 : outs 1 with
    | response s => simp [request, requestGo, h0, h1]
    | otherExn => simp [request, requestGo, h0, h1]
    | sslError => simp [request, requestGo, h0, h1]

/-- Witness for `request_auth_retry_bound`: both attempts raise the SSL
error, giving exactly one re-acquisition, two attempts and
`BBRequestAuthFail`. -/
theorem request_auth_retry_bound_witness :
    (request outsSSL).1 = .authFail ∧
    (request outsSSL).2.1 = 1 ∧ (request outsSSL).2.2 = 2 :=
  ⟨(request_auth_retry_bound outsSSL).2.2 rfl rfl,
   ((request_auth_retry_bound outsSSL).2.1 rfl).1,
   ((request_auth_retry_bound outsSSL).2.1 rfl).2⟩

/-! ### Path-assignment lemmas for the refresh loop -/

theorem except_bind_ok {ε α β} (a : α) (f : α → Except ε β) :
    (Except.ok a >>= f) = f a := rfl

theorem except_bind_error {ε α β} (e : ε) (f : α → Except ε β) :
    ((Except.error e : Except ε α) >>= f) = Except.error e := rfl

theorem setPath1_found (d ent : List (PyKey × PyVal)) (repo f v : PyVal) (kr kf : PyKey)
    (hkr : toKey repo = .ok kr) (hkf : toKey f = .ok kf)
    (hent : alookup d kr = some (.ddict ent)) :
    setPath1 (.dict d) repo f v =
      .ok (.dict (aupdate d kr (.ddict (aupdate ent kf v)))) := by
  simp [setPath1, getItem, setItem, hkr, hkf, hent]

theorem setPath1_missing (d : List (PyKey × PyVal)) (repo f v : PyVal) (kr : PyKey)
    (hkr : toKey repo = .ok kr)
    (hmiss : alookup d kr = none) :
    setPath1 (.dict d) repo f v = .error .keyError := by
  simp [setPath1, getItem, hkr, hmiss]

theorem setPath2_fresh (d ent : List (PyKey × PyVal)) (repo space f v : PyVal)
    (kr ks kf : PyKey)
    (hkr : toKey repo = .ok kr) (hks : toKey space = .ok ks) (hkf : toKey f = .ok kf)
    (hent : alookup d kr = some (.ddict ent))
    (hfresh : alookup ent ks = none) :
    setPath2 (.dict d) repo space f v =
      .ok (.dict (aupdate d kr (.ddict (ent ++ [(ks, .dict [(kf, v)])])))) := by
  simp [setPath2, getItem, setItem, hkr, hks, hkf, hent, hfresh,
    aupdate_append_of_none _ _ _ _ hfresh, aupdate]

theorem setPath2_existing (d ent sp : List (PyKey × PyVal)) (repo space f v : PyVal)
    (kr ks kf : PyKey)
    (hkr : toKey repo = .ok kr) (hks : toKey space = .ok ks) (hkf : toKey f = .ok kf)
    (hent : alookup d kr = some (.ddict ent))
    (hsp : alookup ent ks = some (.dict sp)) :
    setPath2 (.dict d) repo space f v =
      .ok (.dict (aupdate d kr (.ddict (aupdate ent ks (.dict (aupdate sp kf v)))))) := by
  simp [setPath2, getItem, setItem, hkr, hks, hkf, hent, hsp]

/-- A slug whose per-org step is a no-op (the org was skipped) does not
affect the processing of the other slugs of the context. -/
theorem slugsFold_skip_of_noop (files : String → OrgEnv) (X : String)
    (hX : ∀ cd, processSlug (files X) cd = .ok cd) :
    ∀ (pre post : List String) (cd : PyVal),
      slugsFold files (pre ++ X :: post) cd = slugsFold files (pre ++ post) cd := by
  intro pre
  induction pre with
  | nil =>
    intro post cd
    simp [slugsFold, List.foldlM_cons, hX, except_bind_ok]
  | cons a pre ih =>
    intro post cd
    simp only [slugsFold, List.cons_append, List.foldlM_cons]
    cases h : processSlug (files a) cd with
    | error e => simp [h, except_bind_error]
    | ok cd' =>
      simp only [h, except_bind_ok]
      exact ih post cd'

/-! ### Per-org failure isolation (C9, C10) -/

/-- C9: when `orgConfig.yml` fails to load for an org X, the slug loop
records nothing for X (its step returns the context dict unchanged) and
the loop over any slug list containing X behaves exactly as if X were
not listed, so every other org in the context is populated as it would
be without X. -/
theorem orgconfig_failure_is_isolated (files : String → OrgEnv) (X : String)
    (hX : (files X).orgConfig = .raise) :
    (∀ cd, processSlug (files X) cd = .ok cd) ∧
    ∀ (pre post : List String) (cd : PyVal),
      slugsFold files (pre ++ X :: post) cd = slugsFold files (pre ++ post) cd := by
  have hskip : ∀ cd, processSlug (files X) cd = .ok cd := by
    intro cd
    simp [processSlug, hX, load_bb_file]
  exact ⟨hskip, slugsFold_skip_of_noop files X hskip⟩

/-- Witness for `orgconfig_failure_is_isolated` with a concrete failing
org between two neighbours. -/
theorem orgconfig_failure_is_isolated_witness :
    processSlug (filesAllOrgFail "x-org") (.dict []) = .ok (.dict []) ∧
    slugsFold filesAllOrgFail (["a-org"] ++ "x-org" :: ["b-org"]) (.dict []) =
      slugsFold filesAllOrgFail (["a-org"] ++ ["b-org"]) (.dict []) :=
  ⟨(orgconfig_failure_is_isolated filesAllOrgFail "x-org" rfl).1 (.dict []),
   (orgconfig_failure_is_isolated filesAllOrgFail "x-org" rfl).2 ["a-org"] ["b-org"] (.dict [])⟩

/-- C10: when `orgConfig.yml` loads as a mapping without an `org` key,
the `KeyError` from `odict["org"]` is caught, the org is skipped exactly
like a file-load failure (nothing recorded, context dict unchanged), and
the loop continues with the remaining orgs. -/
theorem missing_org_field_org_skipped (files : String → OrgEnv) (X : String)
    (m : List (PyKey × PyVal))
    (hod : (files X).orgConfig = .ok (.dict m))
    (hnone : alookup m (.str "org") = none) :
    (∀ cd, processSlug (files X) cd = .ok cd) ∧
    ∀ (pre post : List String) (cd : PyVal),
      slugsFold files (pre ++ X :: post) cd = slugsFold files (pre ++ post) cd := by
  have hskip : ∀ cd, processSlug (files X) cd = .ok cd := by
    intro cd
    simp [processSlug, hod, load_bb_file, isDictOrList, getOrgKey, getItem, toKey, hnone]
  exact ⟨hskip, slugsFold_skip_of_noop files X hskip⟩

/-- Witness for `missing_org_field_org_skipped` with a concrete mapping
that has no `org` key. -/
theorem missing_org_field_org_skipped_witness :
    processSlug (filesAllNoOrgKey "x-org") (.dict []) = .ok (.dict []) ∧
    slugsFold filesAllNoOrgKey (["a-org"] ++ "x-org" :: ["b-org"]) (.dict []) =
      slugsFold filesAllNoOrgKey (["a-org"] ++ ["b-org"]) (.dict []) :=
  ⟨(missing_org_field_org_skipped filesAllNoOrgKey "x-org" [(.str "name", .str "n")] rfl rfl).1
      (.dict []),
   (missing_org_field_org_skipped filesAllNoOrgKey "x-org" [(.str "name", .str "n")] rfl rfl).2
      ["a-org"] ["b-org"] (.dict [])⟩

/-! ### Declared org key (C7) -/

/-- C7 counterexample: with one listed repository `x-org` whose
`orgConfig.yml` declares `org: Y`, the lowercased declared key `y` is not
a key of the plain skeleton dict of the context, so `refresh` raises an
uncaught `KeyError` and aborts the whole cycle with nothing published —
the populated data does not appear under the declared key as the claim
states. -/
theorem declared_org_mismatch_raises_keyerror :
    (refresh envC7 st0).2 = some .keyError ∧
    (refresh envC7 st0).1 = st0 ∧
    alookup (skeletonAList (get_repo_names (envC7.listing "c"))) (.str "x") =
      some (.ddict []) ∧
    alookup (skeletonAList (get_repo_names (envC7.listing "c"))) (.str "y") = none :=
  ⟨rfl, rfl, rfl, rfl⟩

/-- C7 as amended: when the lowercased declared `org` value is not a key
of the skeleton dict of the context, the assignment
`new_cache[context][repo]["org"] = odict` raises `KeyError` (the
comprehension in `_make_cache` builds a plain dict, which does not
auto-vivify), aborting the refresh cycle. -/
theorem declared_org_key_missing_aborts (files : OrgEnv)
    (d : List (PyKey × PyVal)) (od : PyVal) (r : String)
    (hod : load_bb_file files.orgConfig = .ok od)
    (horg : getOrgKey od = .ok (.str r))
    (hmiss : alookup d (.str r) = none) :
    processSlug files (.dict d) = .error .keyError := by
  simp [processSlug, hod, horg, setPath1_missing d (.str r) (.str "org") _ (.str r) rfl hmiss]

/-- Witness for `declared_org_key_missing_aborts` with the concrete
mismatching org file. -/
theorem declared_org_key_missing_aborts_witness :
    processSlug filesDeclaredY (.dict [(.str "x", .ddict [])]) = .error .keyError :=
  declared_org_key_missing_aborts filesDeclaredY [(.str "x", .ddict [])]
    (.dict [(.str "org", .str "Y")]) "y" rfl rfl rfl

/-! ### Unavailable `spaces.yml` (C2) -/

/-- C2 counterexample: when `spaces.yml` loads successfully as a mapping
that has no `spaces` key, the read
`new_cache[context][repo]["space"]["spaces"]` raises an uncaught
`KeyError` (the loaded value is a plain dict, not a `defaultdict`), so
the refresh cycle aborts with nothing recorded — the org does not keep
its `org` data and the cycle does not continue as the claim states. -/
theorem spaces_field_missing_aborts_refresh :
    (refresh envC2 st0).2 = some .keyError ∧ (refresh envC2 st0).1 = st0 :=
  ⟨rfl, rfl⟩

/-- C2 as amended: when the load of `spaces.yml` fails
(`BBFileLoadFailure`), the org entry still receives its `org` data, its
`space` value defaults to a `defaultdict(dict)` whose `spaces` member
auto-vivifies to an empty dict (so there are no per-space entries), and
the slug step returns normally so the cycle continues with the remaining
orgs.  (When `spaces.yml` loads but has no `spaces` field, the cycle
aborts instead — see the counterexample.) -/
theorem spaces_load_failure_defaults_to_empty (files : OrgEnv)
    (d ent : List (PyKey × PyVal)) (od : PyVal) (r : String)
    (hod : load_bb_file files.orgConfig = .ok od)
    (horg : getOrgKey od = .ok (.str r))
    (hsp : files.spacesFile = .raise)
    (hent : alookup d (.str r) = some (.ddict ent)) :
    processSlug files (.dict d) =
      .ok (.dict (aupdate d (.str r) (.ddict
        (aupdate (aupdate ent (.str "org") od) (.str "space")
          (.ddict [(.str "spaces", .dict [])]))))) := by
  have h1 := setPath1_found d ent (.str r) (.str "org") od (.str r) (.str "org")
    rfl rfl hent
  have h2 := setPath1_found (aupdate d (.str r) (.ddict (aupdate ent (.str "org") od)))
    (aupdate ent (.str "org") od) (.str r) (.str "space") (.ddict [])
    (.str r) (.str "space") rfl rfl (alookup_aupdate_self _ _ _)
  rw [aupdate_aupdate_self] at h2
  have h3 : getPath2
      (.dict (aupdate d (.str r)
        (.ddict (aupdate (aupdate ent (.str "org") od) (.str "space") (.ddict [])))))
      (.str r) (.str "space") (.str "spaces") =
      .ok (.dict [], .dict (aupdate d (.str r) (.ddict
        (aupdate (aupdate ent (.str "org") od) (.str "space")
          (.ddict [(.str "spaces", .dict [])]))))) := by
    simp [getPath2, getItem, setItem, toKey, alookup, alookup_aupdate_self,
      aupdate_aupdate_self]
  have hraise : load_bb_file ParseResult.raise = .error () := rfl
  simp only [processSlug, hod, horg, hsp, hraise, h1, h2, h3, pyIter, List.map_nil,
    List.foldlM_nil]
  rfl

/-- Witness for `spaces_load_failure_defaults_to_empty` with a concrete
org whose `spaces.yml` fails to load. -/
theorem spaces_load_failure_defaults_to_empty_witness :
    processSlug filesSpacesFail (.dict [(.str "x", .ddict [])]) =
      .ok (.dict [(.str "x", .ddict
        [(.str "org", .dict [(.str "org", .str "x")]),
         (.str "space", .ddict [(.str "spaces", .dict [])])])]) :=
  spaces_load_failure_defaults_to_empty filesSpacesFail [(.str "x", .ddict [])] []
    (.dict [(.str "org", .str "x")]) "x" rfl rfl rfl rfl

/-! ### Atomic security/space-config pairing (C4) -/

/-- C4: one iteration of the space loop writes the `security` and
`space_config` fields of the entry of the space as a unit: either both carry
the two successfully loaded values (which are never `None`), or — as
soon as loading either file fails — both are recorded as `None`.  A
state with one of the pair filled and the other absent is never
produced. -/
theorem space_pair_recorded_as_unit (files : OrgEnv) (d ent : List (PyKey × PyVal))
    (repo space : PyVal) (kr ks : PyKey)
    (hkr : toKey repo = .ok kr) (hks : toKey space = .ok ks)
    (hent : alookup d kr = some (.ddict ent))
    (hfresh : alookup ent ks = none) :
    ∃ sec spc : PyVal,
      processSpace files (.dict d) repo space =
        .ok (.dict (aupdate d kr (.ddict (ent ++
          [(ks, .dict [(.str "security", sec), (.str "space_config", spc)])])))) ∧
      ((sec = .vnone ∧ spc = .vnone ∧
          (load_bb_file (files.secFile space) = .error () ∨
           load_bb_file (files.spcFile space) = .error ())) ∨
        (load_bb_file (files.secFile space) = .ok sec ∧
         load_bb_file (files.spcFile space) = .ok spc ∧
         sec ≠ .vnone ∧ spc ≠ .vnone)) := by
  have hchain : ∀ sec spc : PyVal,
      (match setPath2 (.dict d) repo space (.str "security") sec with
        | .error e => Except.error e
        | .ok c₁ => setPath2 c₁ repo space (.str "space_config") spc) =
      .ok (.dict (aupdate d kr (.ddict (ent ++
        [(ks, .dict [(.str "security", sec), (.str "space_config", spc)])])))) := by
    intro sec spc
    have h1 := setPath2_fresh d ent repo space (.str "security") sec kr ks
      (.str "security") hkr hks rfl hent hfresh
    have hent1 : alookup (aupdate d kr (.ddict (ent ++ [(ks, .dict [(.str "security", sec)])])))
        kr = some (.ddict (ent ++ [(ks, .dict [(.str "security", sec)])])) :=
      alookup_aupdate_self _ _ _
    have hsp1 : alookup (ent ++ [(ks, .dict [(.str "security", sec)])]) ks =
        some (.dict [(.str "security", sec)]) := by
      rw [alookup_append_of_none _ _ _ hfresh]
      simp [alookup]
    have h2 := setPath2_existing _ _ _ repo space (.str "space_config") spc kr ks
      (.str "space_config") hkr hks rfl hent1 hsp1
    rw [aupdate_aupdate_self, aupdate_append_of_none _ _ _ _ hfresh] at h2
    simp only [h1, h2, aupdate]
    simp
  cases hsec : load_bb_file (files.secFile space) with
  | error e =>
    cases e
    refine ⟨.vnone, .vnone, ?_, Or.inl ⟨rfl, rfl, Or.inl rfl⟩⟩
    simp only [processSpace, hsec]
    exact hchain .vnone .vnone
  | ok secv =>
    cases hspc : load_bb_file (files.spcFile space) with
    | error e =>
      cases e
      refine ⟨.vnone, .vnone, ?_, Or.inl ⟨rfl, rfl, Or.inr rfl⟩⟩
      simp only [processSpace, hsec, hspc]
      exact hchain .vnone .vnone
    | ok spcv =>
      refine ⟨secv, spcv, ?_, Or.inr ⟨rfl, rfl,
        fun h => load_bb_file_ne_vnone _ (h ▸ hsec),
        fun h => load_bb_file_ne_vnone _ (h ▸ hspc)⟩⟩
      simp only [processSpace, hsec, hspc]
      exact hchain secv spcv

/-- Witness for `space_pair_recorded_as_unit`: with a failing
`security-group.json` load both fields of the space entry become
`None`. -/
theorem space_pair_recorded_as_unit_witness :
    processSpace filesSpacesFail (.dict [(.str "x", .ddict [])]) (.str "x") (.str "s1") =
      .ok (.dict [(.str "x", .ddict [(.str "s1",
        .dict [(.str "security", .vnone), (.str "space_config", .vnone)])])]) := by
  obtain ⟨sec, spc, heq, hd⟩ := space_pair_recorded_as_unit filesSpacesFail
    [(.str "x", .ddict [])] [] (.str "x") (.str "s1") (.str "x") (.str "s1")
    rfl rfl rfl rfl
  rcases hd with ⟨rfl, rfl, -⟩ | ⟨hsec, -, -, -⟩
  · exact heq
  · exact absurd hsec (by simp [filesSpacesFail, load_bb_file])

/-! ### Skeleton keys (C8) -/

/-- C8 counterexample: the repository named `a-org` with slug `a` is
listed (its display name ends with `-org`, so `_get_repo_names` returns
its slug), yet the skeleton dict built by `_make_cache` is empty, because
the comprehension filters on the slug — not the display name — ending
with `-org`.  The claimed "exactly one key per listed repository whose
display name ends with the marker" fails for this repository. -/
theorem skeleton_requires_slug_suffix :
    get_repo_names [{ name := "a-org", slug := "a" }] = ["a"] ∧
    skeletonAList (get_repo_names [{ name := "a-org", slug := "a" }]) = [] :=
  ⟨rfl, rfl⟩

/-- C8 as amended: the skeleton of a context has a key exactly for the
listed repositories whose display name ends with `-org` and whose slug
also ends with `-org` (the own filter of the comprehension on the slug), the
key being the slug lowercased with the four-character suffix stripped
(duplicate keys coalesce into one dict entry), and the value of every key is
a fresh empty `defaultdict(dict)` container. -/
theorem skeleton_key_characterization (vals : List Repo) (k : String) :
    ((alookup (skeletonAList (get_repo_names vals)) (.str k)).isSome ↔
      ∃ v ∈ vals, strEndsWith v.name "-org" = true ∧ strEndsWith v.slug "-org" = true ∧
        k = strDropRight (pyLower v.slug) 4) ∧
    (∀ p, alookup (skeletonAList (get_repo_names vals)) (.str k) = some p →
      p = .ddict []) := by
  constructor
  · rw [skeletonAList, alookup_fold_isSome]
    simp only [alookup, Option.isSome_none, Bool.false_eq_true, false_or,
      List.mem_filter, get_repo_names, List.mem_map]
    constructor
    · rintro ⟨r, ⟨⟨v, hv, rfl⟩, hrend⟩, hk⟩
      exact ⟨v, hv.1, hv.2, hrend, (PyKey.str.injEq _ _ ▸ hk).symm⟩
    · rintro ⟨v, hv, hname, hslug, rfl⟩
      exact ⟨v.slug, ⟨⟨v, ⟨hv, hname⟩, rfl⟩, hslug⟩, rfl⟩
  · intro p hp
    rw [skeletonAList] at hp
    rcases alookup_fold_val _ _ _ _ _ _ hp with h | h
    · simp [alookup] at h
    · exact h

/-- Witness for `skeleton_key_characterization` at a concrete listing:
slug `B-org` yields exactly the key `b` with an empty container. -/
theorem skeleton_key_characterization_witness :
    (alookup (skeletonAList (get_repo_names [{ name := "b-org", slug := "B-org" }]))
      (.str "b")).isSome = true ∧
    (∀ p, alookup (skeletonAList (get_repo_names [{ name := "b-org", slug := "B-org" }]))
      (.str "b") = some p → p = .ddict []) :=
  ⟨(skeleton_key_characterization [{ name := "b-org", slug := "B-org" }] "b").1.mpr
      ⟨{ name := "b-org", slug := "B-org" }, by simp, rfl, rfl, rfl⟩,
   (skeleton_key_characterization [{ name := "b-org", slug := "B-org" }] "b").2⟩

/-! ### Atomic publication (C1) -/

/-- C1: `refresh` publishes only at the very end: on success the state
receives exactly the newly built cache in one assignment and the clock
reading as timestamp; if an exception escapes the build, both the
published cache and the timestamp are exactly as before; and after
`__init__` the timestamp is `None` until the first completed refresh. -/
theorem refresh_publishes_only_at_end (env : Env) (st : ReaderState) :
    ((refresh env st).2 ≠ none → (refresh env st).1 = st) ∧
    (∀ nc, refreshBuild env = .ok nc →
      (refresh env st).1 = { cache := nc, cache_timestamp := some env.now }) ∧
    ((refresh env st).2 = none → (refresh env st).1.cache_timestamp = some env.now) ∧
    (initState env).cache_timestamp = none := by
  refine ⟨?_, ?_, ?_, rfl⟩
  · unfold refresh
    cases refreshBuild env <;> simp
  · intro nc h
    unfold refresh
    rw [h]
  · unfold refresh
    cases refreshBuild env <;> simp

/-- Witness for `refresh_publishes_only_at_end`: the aborting environment
`envC7` leaves the state untouched, while `envSpacesFail` completes and
records the clock reading. -/
theorem refresh_publishes_only_at_end_witness :
    (refresh envC7 st0).1 = st0 ∧
    (refresh envSpacesFail st0).1.cache_timestamp = some 7 :=
  ⟨(refresh_publishes_only_at_end envC7 st0).1 (by decide),
   (refresh_publishes_only_at_end envSpacesFail st0).2.2.1 rfl⟩

end OrgMgmt
